import Mathlib

/-!
Verification development for the tableau-issue-bot metadata pipeline.

The development shallowly embeds the two XML metadata extractors
(`src/parsers/workbook_parser.py`, `src/parsers/prep_flow_parser.py`) and the
context assembler (`src/core/context_manager.py`).  XML documents are modelled
as a rose tree of elements carrying a tag, an ordered attribute list and an
ordered child list; ElementTree path queries of the shapes used by the source
(descendant search by tag, optionally filtered on an attribute) are modelled
directly as tree walks in document (preorder) order.  Python dictionaries that
the source builds with literal key sets are modelled as ordered association
lists; a Python value that can be None is modelled as an Option.
-/

/-- An XML element: tag name, attribute list (document order), child elements
(document order).  Models the ElementTree `Element` objects the parsers walk. -/
inductive Elem where
  | mk (tag : String) (attrs : List (String × String)) (children : List Elem)

/-- Tag name of an element. -/
def Elem.tag : Elem → String
  | .mk t _ _ => t

/-- Attribute list of an element. -/
def Elem.attrs : Elem → List (String × String)
  | .mk _ a _ => a

/-- Child list of an element. -/
def Elem.children : Elem → List Elem
  | .mk _ _ c => c

mutual

/-- All proper descendants of an element in document (preorder) order.
Models the element set scanned by an ElementTree query of the form
`element.findall(".//...")`, which never yields the element itself. -/
def Elem.desc : Elem → List Elem
  | .mk _ _ cs => descList cs

/-- Preorder listing of a forest: each root followed by its descendants. -/
def descList : List Elem → List Elem
  | [] => []
  | e :: rest => e :: (Elem.desc e ++ descList rest)

end

/-- Attribute lookup, `element.get(key)` with no default: some value when the
attribute is present, none otherwise. -/
def Elem.attr (e : Elem) (k : String) : Option String :=
  (e.attrs.find? (fun p => p.1 = k)).map (fun p => p.2)

/-- Attribute lookup with default, `element.get(key, d)`. -/
def Elem.getA (e : Elem) (k d : String) : String :=
  (e.attr k).getD d

/-- Model of `findall(".//tag")`: every descendant with the given tag, in
document order. -/
def Elem.findAll (e : Elem) (t : String) : List Elem :=
  e.desc.filter (fun c => c.tag = t)

/-- Model of `findall(".//tag[@a]")`: descendants with the given tag carrying
attribute `a`, in document order. -/
def Elem.findAllHasAttr (e : Elem) (t a : String) : List Elem :=
  e.desc.filter (fun c => c.tag = t ∧ (c.attr a).isSome)

/-- Model of `findall(".//tag[@a=v]")`: descendants with the given tag whose
attribute `a` equals `v`, in document order. -/
def Elem.findAllAttrEq (e : Elem) (t a v : String) : List Elem :=
  e.desc.filter (fun c => c.tag = t ∧ c.attr a = some v)

/-- Model of `find(".//tag")`: the first matching descendant, if any. -/
def Elem.findFirst (e : Elem) (t : String) : Option Elem :=
  (e.findAll t).head?

/-- Model of `find(".//tag[@a=v]")`: the first matching descendant, if any. -/
def Elem.findFirstAttrEq (e : Elem) (t a v : String) : Option Elem :=
  (e.findAllAttrEq t a v).head?

/-- Association-list lookup, `d.get(k)` on a Python dict modelled as an
ordered association list: some value when the key is present. -/
def dictGet? {α : Type} (d : List (String × α)) (k : String) : Option α :=
  (d.find? (fun p => p.1 = k)).map (fun p => p.2)

/-- Python dict assignment `d[k] = v`: replaces the value in place when the
key exists (preserving position), otherwise appends the new binding. -/
def dictSet {α : Type} : List (String × α) → String → α → List (String × α)
  | [], k, v => [(k, v)]
  | (k0, v0) :: rest, k, v =>
    if k0 = k then (k, v) :: rest else (k0, v0) :: dictSet rest k v

/-- Case-sensitive substring test, Python `pat in hay`. -/
def strContains (hay pat : String) : Bool :=
  (List.range (hay.data.length + 1)).any (fun i => pat.data.isPrefixOf (hay.data.drop i))

/-- Characters of a string folded to lower case. -/
def lowerStr (s : String) : List Char := s.data.map Char.toLower

/-- Case-insensitive substring containment: does `hay` contain `pat` as a
substring when both are lower-cased?  This is the matching rule the spec
states for historical-issue lookup. -/
def substrCI (hay pat : String) : Bool :=
  (List.range (hay.data.length + 1)).any
    (fun i => (lowerStr pat).isPrefixOf ((lowerStr hay).drop i))

/-- Case-insensitive match of a regex pattern against a text position, for the
fragment of Python regular expressions consisting of literal characters and
the single-character wildcard dot.  Metacharacters beyond the dot, and the
newline exclusion of the dot, are outside the modelled fragment; the file only
evaluates this on patterns inside the fragment. -/
def patMatchAt : List Char → List Char → Bool
  | [], _ => true
  | _ :: _, [] => false
  | p :: ps, c :: cs => ((p == '.') || (p.toLower == c.toLower)) && patMatchAt ps cs

/-- Case-insensitive regex containment, the semantics of
`Series.str.contains(pat, case=False)` (which treats `pat` as a regular
expression, searched anywhere in the string), restricted to the fragment
modelled by `patMatchAt`. -/
def regexContains (pat hay : String) : Bool :=
  (List.range (hay.data.length + 1)).any (fun i => patMatchAt pat.data (hay.data.drop i))

/-- The regular-expression metacharacters of Python `re`. -/
def reMetachars : List Char := (".^$*+?\x7b\x7d[]()|\\").data

/-- A pattern string is metacharacter-free: every character is a regex
literal, so regex containment and plain substring containment agree. -/
def noMeta (s : String) : Bool :=
  s.data.all (fun c => !(reMetachars.contains c))

/-- Python truthiness of an optional string: None and the empty string are
falsy. -/
def pyTruthy (o : Option String) : Bool :=
  match o with
  | none => false
  | some s => s ≠ ""

/-- Python `str.title()` on the alphabetic words the assembler feeds it: the
first letter of each alphabetic run is upper-cased, the rest lower-cased. -/
def pyTitleAux : List Char → Bool → List Char
  | [], _ => []
  | c :: cs, prevAlpha =>
    if c.isAlpha then
      (if prevAlpha then c.toLower else c.toUpper) :: pyTitleAux cs true
    else
      c :: pyTitleAux cs false

/-- Python `str.title()`. -/
def pyTitle (s : String) : String := String.mk (pyTitleAux s.data false)

/-- Python `str.startswith(p)`. -/
def pyStartsWith (s p : String) : Bool := p.data.isPrefixOf s.data

/-- Python `str.upper()`. -/
def pyUpper (s : String) : String := String.mk (s.data.map Char.toUpper)

/-- Worker for `pyReplace`, structurally recursive on a character-count fuel
(one unit of fuel per character of the input suffices for the non-empty
patterns the source uses). -/
def pyReplaceAux (pat rep : List Char) : Nat → List Char → List Char
  | _, [] => []
  | 0, l => l
  | fuel + 1, c :: cs =>
    if pat.isPrefixOf (c :: cs) then
      rep ++ pyReplaceAux pat rep fuel (List.drop (pat.length - 1) cs)
    else
      c :: pyReplaceAux pat rep fuel cs

/-- Python `str.replace(pat, rep)` for a non-empty pattern (the source only
replaces the underscore). -/
def pyReplace (s pat rep : String) : String :=
  String.mk (pyReplaceAux pat.data rep.data s.data.length s.data)

example : pyReplace "prep_flow" "_" " " = "prep flow" := by decide

example : pyStartsWith "Parameters X" "Parameters" = true := by decide

example : pyUpper "inner" = "INNER" := by decide

example : pyTitle "prep flow" = "Prep Flow" := by decide

example : strContains "abCalculated_x" "Calculated" = true := by decide

example : substrCI "My Sales_Dashboard v2" "sales_dashboard" = true := by decide

example : regexContains "a.b" "zaxbz" = true := by decide

namespace WorkbookParser

/-- Connection sub-record of a workbook datasource, the dict built by
`WorkbookParser._extract_connection`: the values are the raw results of
`conn.get(attr)` and may therefore be None (modelled as `none`). -/
abbrev ConnDict := List (String × Option String)

/-- Datasource record built by `WorkbookParser.extract_datasources`. -/
structure DatasourceInfo where
  name : String
  caption : String
  inline : String
  connection : ConnDict
deriving DecidableEq

/-- Calculated-field record built by
`WorkbookParser.extract_calculated_fields`. -/
structure CalcField where
  name : String
  internal_name : String
  formula : String
  datatype : String
  role : String
  type : String
deriving DecidableEq

/-- Parameter record built by `WorkbookParser.extract_parameters`. -/
structure ParamInfo where
  name : String
  caption : String
  datatype : String
  value : String
  alias_ : String
deriving DecidableEq

/-- Filter record built by `WorkbookParser.extract_filters`; `cls` models the
dict key "class" (a reserved word in Lean). -/
structure FilterInfo where
  column : String
  cls : String
  field : String
deriving DecidableEq

/-- The left and right tables of a workbook join. -/
structure JoinTables where
  left : String
  right : String
deriving DecidableEq

/-- Join record built by `WorkbookParser.extract_joins`. -/
structure JoinInfo where
  join_type : String
  connection : String
  tables : JoinTables
  condition : String
deriving DecidableEq

/-- Embedding of `WorkbookParser._extract_connection`: the first descendant
connection element yields a six-key dict of raw optional attribute values;
absence of the connection element yields the empty dict. -/
def _extract_connection (datasource : Elem) : ConnDict :=
  match datasource.findFirst "connection" with
  | none => []
  | some conn =>
    [("class", conn.attr "class"),
     ("server", conn.attr "server"),
     ("dbname", conn.attr "dbname"),
     ("schema", conn.attr "schema"),
     ("username", conn.attr "username"),
     ("authentication", conn.attr "authentication")]

/-- Loop body of `WorkbookParser.extract_datasources` for one datasource
element: skip when the (truthy) name starts with "Parameters" or equals
"Sample File", otherwise build the record. -/
def dsRecord (ds : Elem) : Option DatasourceInfo :=
  let ds_name := (ds.attr "name").getD ""
  if ds_name ≠ "" ∧ (pyStartsWith ds_name "Parameters" = true ∨ ds_name = "Sample File") then
    none
  else
    some { name := ds_name,
           caption := ds.getA "caption" ds_name,
           inline := ds.getA "inline" "false",
           connection := _extract_connection ds }

/-- Embedding of `WorkbookParser.extract_datasources`: every descendant
datasource element carrying a name attribute, skipping the reserved
internal-datasource names. -/
def extract_datasources (root : Elem) : List DatasourceInfo :=
  (root.findAllHasAttr "datasource" "name").filterMap dsRecord

/-- Loop body of `WorkbookParser.extract_calculated_fields` for one captioned
column: the column is skipped unless its name contains "Calculated" or it has
a calculation descendant, and a record is appended only when a calculation
descendant is actually present. -/
def calcRecord (col : Elem) : Option CalcField :=
  let calc_name := col.getA "name" ""
  if ¬ (strContains calc_name "Calculated" = true ∨ (col.findFirst "calculation").isSome = true) then
    none
  else
    match col.findFirst "calculation" with
    | none => none
    | some calculation =>
      some { name := col.getA "caption" calc_name,
             internal_name := calc_name,
             formula := calculation.getA "formula" "",
             datatype := col.getA "datatype" "unknown",
             role := col.getA "role" "",
             type := col.getA "type" "" }

/-- Embedding of `WorkbookParser.extract_calculated_fields`: applies
`calcRecord` to every column element carrying a caption, in document order. -/
def extract_calculated_fields (root : Elem) : List CalcField :=
  (root.findAllHasAttr "column" "caption").filterMap calcRecord

/-- Embedding of `WorkbookParser.extract_parameters`. -/
def extract_parameters (root : Elem) : List ParamInfo :=
  (root.findAll "parameter").map (fun p =>
    { name := p.getA "name" "",
      caption := p.getA "caption" (p.getA "name" ""),
      datatype := p.getA "type" "",
      value := p.getA "value" "",
      alias_ := p.getA "alias" "" })

/-- Embedding of `WorkbookParser.extract_filters`: one record per filter
element, dropped when both the column and the field attributes are empty. -/
def extract_filters (root : Elem) : List FilterInfo :=
  (root.findAll "filter").filterMap (fun f =>
    let fi : FilterInfo :=
      { column := f.getA "column" "", cls := f.getA "class" "", field := f.getA "field" "" }
    if fi.column ≠ "" ∨ fi.field ≠ "" then some fi else none)

/-- Embedding of `WorkbookParser._extract_join_tables`: when the join relation
has at least two table-typed relation descendants, the first two (in document
order) give the left and right table names, each read from the table attribute
with the name attribute as fallback; otherwise both sides stay empty. -/
def _extract_join_tables (relation : Elem) : JoinTables :=
  match relation.findAllAttrEq "relation" "type" "table" with
  | t0 :: t1 :: _ =>
    { left := t0.getA "table" (t0.getA "name" ""),
      right := t1.getA "table" (t1.getA "name" "") }
  | _ => { left := "", right := "" }

/-- Embedding of `WorkbookParser._extract_join_clause`: the expression of the
first join-typed clause descendant, defaulting to the empty string when that
clause lacks the attribute; only when no such clause exists is the relation
element itself consulted for an expression attribute. -/
def _extract_join_clause (relation : Elem) : String :=
  match relation.findFirstAttrEq "clause" "type" "join" with
  | some clause => clause.getA "expression" ""
  | none => relation.getA "expression" ""

/-- Embedding of `WorkbookParser.extract_joins`: one record per join-typed
relation descendant, in document order. -/
def extract_joins (root : Elem) : List JoinInfo :=
  (root.findAllAttrEq "relation" "type" "join").map (fun relation =>
    { join_type := relation.getA "join" "inner",
      connection := relation.getA "connection" "",
      tables := _extract_join_tables relation,
      condition := _extract_join_clause relation })

end WorkbookParser

namespace PrepFlowParser

/-- Connection sub-record of a prep-flow input or output node, as built by
`PrepFlowParser._extract_input_connection` and
`PrepFlowParser._extract_output_connection`: every value is defaulted to the
empty string, so no value is ever None. -/
abbrev PrepConnDict := List (String × String)

/-- Embedding of `PrepFlowParser._extract_input_connection`. -/
def _extract_input_connection (node : Elem) : PrepConnDict :=
  match node.findFirst "connection" with
  | none => []
  | some conn =>
    [("class", conn.getA "class" ""),
     ("server", conn.getA "server" ""),
     ("dbname", conn.getA "dbname" ""),
     ("schema", conn.getA "schema" ""),
     ("table", conn.getA "table-name" "")]

/-- Embedding of `PrepFlowParser._extract_output_connection`. -/
def _extract_output_connection (node : Elem) : PrepConnDict :=
  match node.findFirst "connection" with
  | none => []
  | some conn =>
    [("class", conn.getA "class" ""),
     ("dbname", conn.getA "dbname" ""),
     ("schema", conn.getA "schema" ""),
     ("table", conn.getA "table-name" "")]

/-- Input-source record built by `PrepFlowParser.extract_input_sources`. -/
structure InputSource where
  id : String
  name : String
  connection : PrepConnDict
deriving DecidableEq

/-- Embedding of `PrepFlowParser.extract_input_sources`. -/
def extract_input_sources (root : Elem) : List InputSource :=
  (root.findAllAttrEq "node" "type" "input").map (fun n =>
    { id := n.getA "id" "", name := n.getA "name" "",
      connection := _extract_input_connection n })

/-- Output record built by `PrepFlowParser.extract_outputs`. -/
structure OutputInfo where
  id : String
  name : String
  input_source : String
  connection : PrepConnDict
deriving DecidableEq

/-- Embedding of `PrepFlowParser.extract_outputs`. -/
def extract_outputs (root : Elem) : List OutputInfo :=
  (root.findAllAttrEq "node" "type" "output").map (fun n =>
    { id := n.getA "id" "", name := n.getA "name" "",
      input_source := n.getA "input" "",
      connection := _extract_output_connection n })

/-- Aggregation entry of an aggregate step. -/
structure AggField where
  name : String
  calculation : String
  source_field : String
deriving DecidableEq

/-- Filter-condition dict of a filter step; `none` models the empty dict
returned when no condition element exists. -/
structure FilterCond where
  field : String
  operator : String
  value : String
deriving DecidableEq

/-- Clean-operation dict of a clean step; `none` models the empty dict
returned when no operation element exists. -/
structure CleanOp where
  type : String
  field : String
deriving DecidableEq

/-- Embedding of `PrepFlowParser._extract_aggregations`: the field children of
every aggregations descendant (the path query "aggregations/field"). -/
def _extract_aggregations (node : Elem) : List AggField :=
  ((node.desc.filter (fun a => a.tag = "aggregations")).flatMap
      (fun a => a.children.filter (fun c => c.tag = "field"))).map (fun f =>
    { name := f.getA "name" "",
      calculation := f.getA "calculation" "",
      source_field := f.getA "source-field" "" })

/-- Embedding of `PrepFlowParser._extract_filter_condition`; `none` is the
empty dict of the source. -/
def _extract_filter_condition (node : Elem) : Option FilterCond :=
  (node.findFirst "condition").map (fun c =>
    { field := c.getA "field" "", operator := c.getA "operator" "",
      value := c.getA "value" "" })

/-- Embedding of `PrepFlowParser._extract_clean_operation`; `none` is the
empty dict of the source. -/
def _extract_clean_operation (node : Elem) : Option CleanOp :=
  (node.findFirst "operation").map (fun op =>
    { type := op.getA "type" "", field := op.getA "field" "" })

/-- Step record built by `PrepFlowParser.extract_step_sequence`.  The four
optional fields model dict keys that are only added for the matching step
type; the inner Option of `condition` and `operation` models the empty dict
that their extractors return when the sub-element is absent. -/
structure StepInfo where
  step_number : Nat
  type : String
  id : String
  name : String
  input_source : String
  description : String
  join_type : Option String
  aggregations : Option (List AggField)
  condition : Option (Option FilterCond)
  operation : Option (Option CleanOp)
deriving DecidableEq

/-- Step record constructor: the body of the loop in
`PrepFlowParser.extract_step_sequence` for a node of truthy type, given the
step number it is assigned. -/
def mkStep (node : Elem) (node_type : String) (k : Nat) : StepInfo :=
  { step_number := k,
    type := node_type,
    id := node.getA "id" "",
    name := node.getA "name" "",
    input_source := node.getA "input" "",
    description := "",
    join_type := if node_type = "join" then some (node.getA "join-type" "") else none,
    aggregations := if node_type = "aggregate" then some (_extract_aggregations node) else none,
    condition := if node_type = "filter" then some (_extract_filter_condition node) else none,
    operation := if node_type = "clean" then some (_extract_clean_operation node) else none }

/-- Loop of `PrepFlowParser.extract_step_sequence`: walks the node list in
document order carrying the running step counter; nodes whose type attribute
is absent or empty are skipped without consuming a number. -/
def stepsAux : List Elem → Nat → List StepInfo
  | [], _ => []
  | node :: rest, k =>
    match node.attr "type" with
    | none => stepsAux rest k
    | some t => if t = "" then stepsAux rest k else mkStep node t (k + 1) :: stepsAux rest (k + 1)

/-- Embedding of `PrepFlowParser.extract_step_sequence`. -/
def extract_step_sequence (root : Elem) : List StepInfo :=
  stepsAux (root.findAll "node") 0

/-- Truthiness of the type attribute of a node: present and non-empty. -/
def nodeTyped (n : Elem) : Bool :=
  match n.attr "type" with
  | none => false
  | some t => t ≠ ""

/-- One side of a prep-flow join, as stored under the "left"/"right" keys. -/
structure JoinInput where
  source : String
  alias_ : String
deriving DecidableEq

/-- Record built for one input element of a join node. -/
def mkJoinInput (inp : Elem) : JoinInput :=
  { source := inp.getA "source" "", alias_ := inp.getA "alias" "" }

/-- Loop body of `PrepFlowParser._extract_join_inputs` for one enumerated
input element: the element at index 0 is stored under "left", every other
element under "right". -/
def joinInputStep (inputs : List (String × JoinInput)) (p : Nat × Elem) :
    List (String × JoinInput) :=
  dictSet inputs (if p.1 = 0 then "left" else "right") (mkJoinInput p.2)

/-- Embedding of `PrepFlowParser._extract_join_inputs`: iterates over every
input descendant, storing the first under the key "left" and every later one
under the key "right", so later inputs overwrite earlier ones there. -/
def _extract_join_inputs (join_node : Elem) : List (String × JoinInput) :=
  (join_node.findAll "input").enum.foldl joinInputStep []

/-- Join-condition record built by `PrepFlowParser._extract_join_conditions`. -/
structure JoinCond where
  left_field : String
  right_field : String
  operator : String
  left_source : String
  right_source : String
deriving DecidableEq

/-- Embedding of `PrepFlowParser._extract_join_conditions`. -/
def _extract_join_conditions (join_node : Elem) : List JoinCond :=
  (join_node.findAll "join-clause").map (fun clause =>
    { left_field := clause.getA "left-field" "",
      right_field := clause.getA "right-field" "",
      operator := clause.getA "operator" "=",
      left_source := clause.getA "left-source" "",
      right_source := clause.getA "right-source" "" })

/-- Join record built by `PrepFlowParser.extract_joins`. -/
structure PrepJoin where
  id : String
  name : String
  join_type : String
  inputs : List (String × JoinInput)
  conditions : List JoinCond
deriving DecidableEq

/-- Embedding of `PrepFlowParser.extract_joins`. -/
def extract_joins (root : Elem) : List PrepJoin :=
  (root.findAllAttrEq "node" "type" "join").map (fun j =>
    { id := j.getA "id" "", name := j.getA "name" "",
      join_type := j.getA "join-type" "inner",
      inputs := _extract_join_inputs j,
      conditions := _extract_join_conditions j })

end PrepFlowParser

namespace ContextManager

/-- One row of the historical-issue dataset.  A missing (NaN) cell is `none`;
the four named columns are the ones the manager reads.  Cell values are
modelled as strings present-or-absent. -/
structure IssueRow where
  dashboardName : Option String
  issueDescription : Option String
  rootCause : Option String
  resolution : Option String
deriving DecidableEq

/-- Row predicate of `ContextManager.get_relevant_issues`: the pandas filter
`str.contains(dashboard_name, case=False, na=False)`, which treats the query
as a case-insensitive regular expression and never matches a missing cell. -/
def rowMatches (dashboard_name : String) (r : IssueRow) : Bool :=
  match r.dashboardName with
  | none => false
  | some s => regexContains dashboard_name s

/-- Embedding of `ContextManager.get_relevant_issues`.  The dataset is `none`
when loading failed at startup; `limit` is the resolved positive limit (the
source reads a default from the environment when the caller passes None, which
is outside the model).  Returns the first `limit` matching rows in dataset
order. -/
def get_relevant_issues (issues_df : Option (List IssueRow))
    (dashboard_name : String) (limit : Nat) : List IssueRow :=
  match issues_df with
  | none => []
  | some rows =>
    if rows.length = 0 then []
    else (rows.filter (rowMatches dashboard_name)).take limit

/-- Workbook metadata record as consumed by the formatter (the JSON written by
`WorkbookParser.parse_to_dict`; the source-file sub-dict is not read by the
formatter and is omitted). -/
structure WorkbookMetadata where
  dashboard_name : String
  datasources : List WorkbookParser.DatasourceInfo
  calculated_fields : List WorkbookParser.CalcField
  parameters : List WorkbookParser.ParamInfo
  filters : List WorkbookParser.FilterInfo
  joins : List WorkbookParser.JoinInfo
deriving DecidableEq

/-- Prep-flow metadata record as consumed by the formatter (the JSON written
by `PrepFlowParser.parse_to_dict`). -/
structure PrepFlowMetadata where
  flow_name : String
  input_sources : List PrepFlowParser.InputSource
  steps : List PrepFlowParser.StepInfo
  joins : List PrepFlowParser.PrepJoin
  outputs : List PrepFlowParser.OutputInfo
deriving DecidableEq

/-- A loaded metadata record of either kind. -/
abbrev MetaDoc := WorkbookMetadata ⊕ PrepFlowMetadata

/-- Rendering of `conn.get("class", "N/A")` inside an f-string: a stored None
renders as "None", a missing key as "N/A". -/
def wbConnClass (conn : WorkbookParser.ConnDict) : String :=
  match dictGet? conn "class" with
  | none => "N/A"
  | some none => "None"
  | some (some s) => s

/-- Truthy string value of a workbook connection key: the stored value when it
is a non-empty string, `none` when the key is missing, None or empty. -/
def connTruthy (conn : WorkbookParser.ConnDict) (k : String) : Option String :=
  match dictGet? conn k with
  | some (some s) => if s = "" then none else some s
  | _ => none

/-- Datasource bullet of `ContextManager._format_workbook_metadata`. -/
def fmtDatasourceLine (ds : WorkbookParser.DatasourceInfo) : String :=
  let conn := ds.connection
  let s0 := wbConnClass conn
  let s1 := match connTruthy conn "dbname" with
    | some d => s0 ++ " - " ++ d
    | none => s0
  let s2 := match connTruthy conn "server" with
    | some v => s1 ++ " @ " ++ v
    | none => s1
  "- **" ++ ds.caption ++ "**: " ++ s2

/-- Calculated-field bullet of `ContextManager._format_workbook_metadata`. -/
def fmtCalcLine (f : WorkbookParser.CalcField) : String :=
  "- **" ++ f.name ++ "**: `" ++ f.formula ++ "`"

/-- Trailer line emitted when more than 10 calculated fields exist, reporting
the number of fields not shown. -/
def calcTrailer (n : Nat) : String :=
  "  _(... and " ++ toString n ++ " more)_"

/-- Parameter bullet of `ContextManager._format_workbook_metadata`. -/
def fmtParamLine (p : WorkbookParser.ParamInfo) : String :=
  let value_str := if p.value ≠ "" then " = " ++ p.value else ""
  "- **" ++ p.caption ++ "** (" ++ p.datatype ++ ")" ++ value_str

/-- Join lines of `ContextManager._format_workbook_metadata`: the join bullet
plus a condition line when the condition string is truthy. -/
def fmtJoinLines (j : WorkbookParser.JoinInfo) : List String :=
  ("- **" ++ pyUpper j.join_type ++ " JOIN**: " ++ j.tables.left ++ " ↔ " ++ j.tables.right)
    :: (if j.condition ≠ "" then ["  - Condition: `" ++ j.condition ++ "`"] else [])

/-- Filter bullet of `ContextManager._format_workbook_metadata`; the Python
`or` picks the field attribute when the column is falsy. -/
def fmtFilterLine (f : WorkbookParser.FilterInfo) : String :=
  let col := if f.column = "" then f.field else f.column
  "- " ++ col ++ " (" ++ f.cls ++ ")"

/-- Section lines accumulated by `ContextManager._format_workbook_metadata`
before the final newline join: a header line, then one block per non-empty
collection in the fixed order datasources, calculated fields (first 10 plus a
trailer when truncated), parameters, joins, filters (first 5). -/
def wbSections (m : WorkbookMetadata) : List String :=
  ["# Tableau Workbook: " ++ m.dashboard_name ++ "\n"]
  ++ (if m.datasources = [] then [] else
        "## Data Sources:" :: m.datasources.map fmtDatasourceLine)
  ++ (if m.calculated_fields = [] then [] else
        "\n## Calculated Fields:" ::
          ((m.calculated_fields.take 10).map fmtCalcLine
            ++ (if 10 < m.calculated_fields.length then
                  [calcTrailer (m.calculated_fields.length - 10)] else [])))
  ++ (if m.parameters = [] then [] else
        "\n## Parameters:" :: m.parameters.map fmtParamLine)
  ++ (if m.joins = [] then [] else
        "\n## Joins:" :: m.joins.flatMap fmtJoinLines)
  ++ (if m.filters = [] then [] else
        "\n## Active Filters:" :: (m.filters.take 5).map fmtFilterLine)

/-- Embedding of `ContextManager._format_workbook_metadata`. -/
def _format_workbook_metadata (m : WorkbookMetadata) : String :=
  String.intercalate "\n" (wbSections m)

/-- Input-source bullet of `ContextManager._format_prepflow_metadata`. -/
def fmtInputLine (inp : PrepFlowParser.InputSource) : String :=
  let conn := inp.connection
  let table_info := (dictGet? conn "table").getD "N/A"
  let table_info := match dictGet? conn "dbname" with
    | some d => if d ≠ "" then d ++ "." ++ table_info else table_info
    | none => table_info
  "- **" ++ inp.name ++ "**: " ++ table_info

/-- Step line of `ContextManager._format_prepflow_metadata`. -/
def fmtStepLine (step : PrepFlowParser.StepInfo) : String :=
  let step_desc := toString step.step_number ++ ". **" ++ pyUpper step.type ++ "**: " ++ step.name
  match step.join_type with
  | some jt => if jt ≠ "" then step_desc ++ " (" ++ jt ++ " join)" else step_desc
  | none => step_desc

/-- Join lines of `ContextManager._format_prepflow_metadata`: one bullet per
join naming the two aliases, then one line per join condition. -/
def fmtPrepJoinLines (j : PrepFlowParser.PrepJoin) : List String :=
  let left_alias := match dictGet? j.inputs "left" with
    | some ji => ji.alias_
    | none => "Left"
  let right_alias := match dictGet? j.inputs "right" with
    | some ji => ji.alias_
    | none => "Right"
  ("- **" ++ j.name ++ "** (" ++ j.join_type ++ "): " ++ left_alias ++ " + " ++ right_alias)
    :: j.conditions.map (fun c =>
        "  - ON: " ++ c.left_field ++ " " ++ c.operator ++ " " ++ c.right_field)

/-- Output bullet of `ContextManager._format_prepflow_metadata`. -/
def fmtOutputLine (out : PrepFlowParser.OutputInfo) : String :=
  let conn := out.connection
  let dest := match dictGet? conn "table" with
    | some t => t
    | none => (dictGet? conn "dbname").getD "Unknown"
  "- **" ++ out.name ++ "** → " ++ dest

/-- Section lines accumulated by `ContextManager._format_prepflow_metadata`:
header, then input sources, steps, join details and outputs, each block only
when its collection is non-empty. -/
def pfSections (m : PrepFlowMetadata) : List String :=
  ["# Tableau Prep Flow: " ++ m.flow_name ++ "\n"]
  ++ (if m.input_sources = [] then [] else
        "## Input Sources:" :: m.input_sources.map fmtInputLine)
  ++ (if m.steps = [] then [] else
        "\n## Transformation Steps:" :: m.steps.map fmtStepLine)
  ++ (if m.joins = [] then [] else
        "\n## Join Details:" :: m.joins.flatMap fmtPrepJoinLines)
  ++ (if m.outputs = [] then [] else
        "\n## Output Destinations:" :: m.outputs.map fmtOutputLine)

/-- Embedding of `ContextManager._format_prepflow_metadata`. -/
def _format_prepflow_metadata (m : PrepFlowMetadata) : String :=
  String.intercalate "\n" (pfSections m)

/-- Embedding of `ContextManager._format_metadata`.  The source dispatches on
the dashboard_type string, which callers keep consistent with the shape of the
loaded record; the dispatch is modelled on the variant of the record. -/
def _format_metadata (md : MetaDoc) : String :=
  match md with
  | Sum.inl w => _format_workbook_metadata w
  | Sum.inr p => _format_prepflow_metadata p

/-- The value the formatter shows for a possibly missing issue cell:
`issue.get(column, "N/A")`. -/
def issueVal (o : Option String) : String := o.getD "N/A"

/-- Lines of one numbered issue block of `ContextManager._format_issues`. -/
def issueBlock (i : Nat) (issue : IssueRow) : List String :=
  ["## Issue " ++ toString i ++ ":",
   "**Description:** " ++ issueVal issue.issueDescription,
   "**Root Cause:** " ++ issueVal issue.rootCause,
   "**Resolution:** " ++ issueVal issue.resolution,
   ""]

/-- Embedding of `ContextManager._format_issues`. -/
def _format_issues (issues : List IssueRow) : String :=
  if issues = [] then
    String.intercalate "\n"
      ["# Historical Issues & Resolutions\n",
       "_No previous issues found for this dashboard._"]
  else
    String.intercalate "\n"
      (["# Historical Issues & Resolutions\n",
        "_Found " ++ toString issues.length ++ " similar past issue(s):_\n"]
        ++ issues.enum.flatMap (fun p => issueBlock (p.1 + 1) p.2))

/-- Embedding of `ContextManager.build_context_summary`, decoupled from file
and dataset I/O: `metadata` is the outcome of `load_dashboard_metadata` (None
on any load failure) and `issues` the outcome of `get_relevant_issues`.  The
two sections are joined with the fixed separator. -/
def build_context_summary (dashboard_name dashboard_type : String)
    (metadata : Option MetaDoc) (issues : List IssueRow) : String :=
  let part1 := match metadata with
    | some md => _format_metadata md
    | none =>
      "# " ++ pyTitle (pyReplace dashboard_type "_" " ") ++ ": " ++ dashboard_name
        ++ "\n\n(No metadata available)"
  let part2 :=
    if issues ≠ [] then _format_issues issues
    else "# Historical Issues\n\nNo previous issues found for this dashboard."
  String.intercalate "\n\n---\n\n" [part1, part2]

end ContextManager

section ConcreteDocuments

/-- A captioned column whose internal name contains "Calculated" but which has
no nested calculation element. -/
def calcCol : Elem := .mk "column" [("caption", "Profit"), ("name", "[Calculated_123]")] []

/-- A workbook document containing only `calcCol`. -/
def calcDoc : Elem := .mk "workbook" [] [calcCol]

/-- A connection element carrying only a class attribute. -/
def connElem : Elem := .mk "connection" [("class", "postgres")] []

/-- A datasource whose connection element lacks most attributes. -/
def connDs : Elem := .mk "datasource" [("name", "DS1")] [connElem]

/-- A datasource with no connection element at all. -/
def bareDs : Elem := .mk "datasource" [("name", "DS2")] []

/-- A join-typed clause element with no expression attribute. -/
def clauseNoExpr : Elem := .mk "clause" [("type", "join")] []

/-- A join relation whose clause lacks an expression while the relation itself
carries one. -/
def relFallback : Elem :=
  .mk "relation" [("type", "join"), ("expression", "[A]=[B]")] [clauseNoExpr]

/-- A workbook with two reserved datasources and one ordinary one. -/
def resDoc : Elem := .mk "workbook" []
  [.mk "datasource" [("name", "Parameters X")] [],
   .mk "datasource" [("name", "Sample File")] [],
   .mk "datasource" [("name", "Good")] []]

/-- Nested table relation named Orders. -/
def wbTableOrders : Elem := .mk "relation" [("type", "table"), ("name", "Orders")] []

/-- Nested table relation named Customers. -/
def wbTableCustomers : Elem := .mk "relation" [("type", "table"), ("name", "Customers")] []

/-- Join clause with the example expression. -/
def wbJoinClause : Elem :=
  .mk "clause"
    [("type", "join"), ("expression", "[Orders].[CustomerID] = [Customers].[CustomerID]")] []

/-- The example join relation over Orders and Customers. -/
def wbJoinRel : Elem :=
  .mk "relation" [("type", "join"), ("join", "inner")]
    [wbTableOrders, wbTableCustomers, wbJoinClause]

/-- A workbook containing the example join relation. -/
def wbJoinExample : Elem := .mk "workbook" [] [wbJoinRel]

/-- A workbook metadata record with thirteen calculated fields. -/
def m13 : ContextManager.WorkbookMetadata :=
  { dashboard_name := "sales_dashboard",
    datasources := [],
    calculated_fields := (List.range 13).map (fun i =>
      { name := "field" ++ toString i,
        internal_name := "[Calculated_" ++ toString i ++ "]",
        formula := "[Sales] * " ++ toString i,
        datatype := "real", role := "measure", type := "quantitative" }),
    parameters := [], filters := [], joins := [] }

end ConcreteDocuments

section ClaimOne

/-- Claim C1, counterexample: the column of `calcDoc` carries a caption and
its internal name contains "Calculated", so it passes the calculated-field
test, yet extraction returns no record because the column has no nested
calculation element.  The claimed "included even when it has no nested
calculation element" is false on the code. -/
theorem c1_counterexample :
    WorkbookParser.extract_calculated_fields calcDoc = []
    ∧ strContains (calcCol.getA "name" "") "Calculated" = true
    ∧ (calcCol.attr "caption").isSome = true
    ∧ calcCol.findFirst "calculation" = none := by
  refine ⟨by decide, by decide, by decide, rfl⟩

/-- Claim C1 as amended: a captioned column yields a calculated-field record
exactly when it has a nested calculation element — the "Calculated" substring
test alone never adds a record — and the extractor returns the complete set
(one record per such column, no cap applied). -/
theorem c1_calculated_fields_amended (d : Elem) :
    WorkbookParser.extract_calculated_fields d
      = ((d.findAllHasAttr "column" "caption").filter
            (fun col => (col.findFirst "calculation").isSome)).map
          (fun col =>
            let calc_name := col.getA "name" ""
            { name := col.getA "caption" calc_name,
              internal_name := calc_name,
              formula := (match col.findFirst "calculation" with
                          | some c => c.getA "formula" ""
                          | none => ""),
              datatype := col.getA "datatype" "unknown",
              role := col.getA "role" "",
              type := col.getA "type" "" }) := by
  have hnone : ∀ col : Elem, col.findFirst "calculation" = none →
      WorkbookParser.calcRecord col = none := by
    intro col hc
    unfold WorkbookParser.calcRecord
    simp only [hc, Option.isSome_none]
    split
    · rfl
    · rfl
  have hsome : ∀ (col : Elem) (c : Elem), col.findFirst "calculation" = some c →
      WorkbookParser.calcRecord col
        = some { name := col.getA "caption" (col.getA "name" ""),
                 internal_name := col.getA "name" "",
                 formula := c.getA "formula" "",
                 datatype := col.getA "datatype" "unknown",
                 role := col.getA "role" "",
                 type := col.getA "type" "" } := by
    intro col c hc
    unfold WorkbookParser.calcRecord
    simp [hc]
  unfold WorkbookParser.extract_calculated_fields
  generalize (d.findAllHasAttr "column" "caption") = l
  induction l with
  | nil => rfl
  | cons col tl ih =>
    rw [List.filterMap_cons, List.filter_cons]
    cases hc : col.findFirst "calculation" with
    | none => simp [hnone col hc, hc, ih]
    | some c => simp [hsome col c hc, hc, ih]

end ClaimOne

section ClaimTwo

/-- Claim C2, counterexample: a connection attribute absent from the XML does
not surface as an empty string.  For a workbook datasource whose connection
element lacks the server attribute, the canonical record stores None (null)
under a present key; for a datasource with no connection element, the keys
are missing altogether, in both parsers. -/
theorem c2_counterexample :
    dictGet? (WorkbookParser._extract_connection connDs) "server" = some none
    ∧ dictGet? (WorkbookParser._extract_connection bareDs) "server" = none
    ∧ dictGet? (PrepFlowParser._extract_input_connection bareDs) "table" = none := by
  refine ⟨by decide, by decide, by decide⟩

/-- Claim C2 as amended: when the connection element exists, a workbook
connection record stores under each of its six keys the raw optional
attribute (so an absent attribute round-trips as null, not as an empty
string), while a prep-flow input connection stores the attribute defaulted to
the empty string (never null); when the connection element is absent, both
parsers return an empty record with no keys at all. -/
theorem c2_connection_amended (e : Elem) :
    (e.findFirst "connection" = none →
        WorkbookParser._extract_connection e = []
        ∧ PrepFlowParser._extract_input_connection e = [])
    ∧ (∀ conn, e.findFirst "connection" = some conn →
        (dictGet? (WorkbookParser._extract_connection e) "class" = some (conn.attr "class")
         ∧ dictGet? (WorkbookParser._extract_connection e) "server" = some (conn.attr "server")
         ∧ dictGet? (WorkbookParser._extract_connection e) "dbname" = some (conn.attr "dbname")
         ∧ dictGet? (WorkbookParser._extract_connection e) "schema" = some (conn.attr "schema")
         ∧ dictGet? (WorkbookParser._extract_connection e) "username" = some (conn.attr "username")
         ∧ dictGet? (WorkbookParser._extract_connection e) "authentication"
             = some (conn.attr "authentication"))
        ∧ (dictGet? (PrepFlowParser._extract_input_connection e) "class"
             = some (conn.getA "class" "")
           ∧ dictGet? (PrepFlowParser._extract_input_connection e) "server"
             = some (conn.getA "server" "")
           ∧ dictGet? (PrepFlowParser._extract_input_connection e) "dbname"
             = some (conn.getA "dbname" "")
           ∧ dictGet? (PrepFlowParser._extract_input_connection e) "schema"
             = some (conn.getA "schema" "")
           ∧ dictGet? (PrepFlowParser._extract_input_connection e) "table"
             = some (conn.getA "table-name" ""))) := by
  constructor
  · intro h
    unfold WorkbookParser._extract_connection PrepFlowParser._extract_input_connection
    rw [h]
    exact ⟨rfl, rfl⟩
  · intro conn h
    unfold WorkbookParser._extract_connection PrepFlowParser._extract_input_connection
    rw [h]
    refine ⟨⟨?_, ?_, ?_, ?_, ?_, ?_⟩, ?_, ?_, ?_, ?_, ?_⟩ <;> simp [dictGet?, List.find?]

/-- Witness for the amended claim C2 at a concrete datasource: the class
attribute that is present in the XML round-trips under both parsers. -/
theorem c2_connection_witness :
    dictGet? (WorkbookParser._extract_connection connDs) "class" = some (some "postgres")
    ∧ dictGet? (PrepFlowParser._extract_input_connection connDs) "class" = some "postgres" := by
  have h := (c2_connection_amended connDs).2 connElem rfl
  exact ⟨h.1.1.trans (by decide), h.2.1.trans (by decide)⟩

end ClaimTwo


section ClaimFour

/-- The step list produced from a node list starting at counter `k` carries
the contiguous numbers `k+1, k+2, ...`, one per node with a truthy type, and
its records are built from exactly those nodes in order. -/
theorem stepsAux_spec (l : List Elem) (k : Nat) :
    (PrepFlowParser.stepsAux l k).map (fun s => s.step_number)
      = List.range' (k + 1) ((l.filter PrepFlowParser.nodeTyped).length)
    ∧ (PrepFlowParser.stepsAux l k).map (fun s => (s.type, s.id, s.name))
      = (l.filter PrepFlowParser.nodeTyped).map
          (fun n => ((n.attr "type").getD "", n.getA "id" "", n.getA "name" "")) := by
  induction l generalizing k with
  | nil => exact ⟨rfl, rfl⟩
  | cons n tl ih =>
    cases ht : n.attr "type" with
    | none =>
      have hnt : PrepFlowParser.nodeTyped n = false := by
        simp [PrepFlowParser.nodeTyped, ht]
      have e1 : PrepFlowParser.stepsAux (n :: tl) k = PrepFlowParser.stepsAux tl k := by
        simp [PrepFlowParser.stepsAux, ht]
      have e2 : (n :: tl).filter PrepFlowParser.nodeTyped = tl.filter PrepFlowParser.nodeTyped := by
        simp [List.filter_cons, hnt]
      rw [e1, e2]
      exact ih k
    | some t =>
      by_cases h0 : t = ""
      · have hnt : PrepFlowParser.nodeTyped n = false := by
          simp [PrepFlowParser.nodeTyped, ht, h0]
        have e1 : PrepFlowParser.stepsAux (n :: tl) k = PrepFlowParser.stepsAux tl k := by
          simp [PrepFlowParser.stepsAux, ht, h0]
        have e2 : (n :: tl).filter PrepFlowParser.nodeTyped
            = tl.filter PrepFlowParser.nodeTyped := by
          simp [List.filter_cons, hnt]
        rw [e1, e2]
        exact ih k
      · have hnt : PrepFlowParser.nodeTyped n = true := by
          simp [PrepFlowParser.nodeTyped, ht, h0]
        have e1 : PrepFlowParser.stepsAux (n :: tl) k
            = PrepFlowParser.mkStep n t (k + 1) :: PrepFlowParser.stepsAux tl (k + 1) := by
          simp [PrepFlowParser.stepsAux, ht, h0]
        have e2 : (n :: tl).filter PrepFlowParser.nodeTyped
            = n :: tl.filter PrepFlowParser.nodeTyped := by
          simp [List.filter_cons, hnt]
        constructor
        · rw [e1, e2, List.map_cons, List.length_cons, List.range'_succ]
          exact congrArg₂ List.cons rfl (ih (k + 1)).1
        · rw [e1, e2, List.map_cons, List.map_cons]
          refine congrArg₂ List.cons ?_ (ih (k + 1)).2
          simp [PrepFlowParser.mkStep, ht]

/-- Claim C4: extracted step numbers are the contiguous sequence 1..k in
document traversal order, numbering exactly the node elements with a present,
non-empty type attribute; the assigned number depends only on the position
among those nodes, not on the id attribute. -/
theorem c4_step_numbering (d : Elem) :
    (PrepFlowParser.extract_step_sequence d).map (fun s => s.step_number)
      = List.range' 1 (((d.findAll "node").filter PrepFlowParser.nodeTyped).length)
    ∧ (PrepFlowParser.extract_step_sequence d).map (fun s => (s.type, s.id, s.name))
      = ((d.findAll "node").filter PrepFlowParser.nodeTyped).map
          (fun n => ((n.attr "type").getD "", n.getA "id" "", n.getA "name" "")) :=
  stepsAux_spec (d.findAll "node") 0

end ClaimFour

section ClaimNine

/-- A record produced by the datasource loop never carries a reserved name. -/
theorem dsRecord_name_ok (e : Elem) (r : WorkbookParser.DatasourceInfo)
    (h : WorkbookParser.dsRecord e = some r) :
    pyStartsWith r.name "Parameters" = false ∧ r.name ≠ "Sample File" := by
  unfold WorkbookParser.dsRecord at h
  by_cases hres : ((e.attr "name").getD "") ≠ ""
      ∧ (pyStartsWith ((e.attr "name").getD "") "Parameters" = true
          ∨ ((e.attr "name").getD "") = "Sample File")
  · rw [if_pos hres] at h
    cases h
  · rw [if_neg hres] at h
    have hname : r.name = (e.attr "name").getD "" := by
      cases h
      rfl
    by_cases he : ((e.attr "name").getD "") = ""
    · rw [hname, he]
      exact ⟨by decide, by decide⟩
    · have hnr : ¬ (pyStartsWith ((e.attr "name").getD "") "Parameters" = true
          ∨ ((e.attr "name").getD "") = "Sample File") :=
        fun hor => hres ⟨he, hor⟩
      rw [not_or] at hnr
      rw [hname]
      exact ⟨Bool.not_eq_true _ ▸ hnr.1, hnr.2⟩

/-- Name-level behaviour of the datasource loop: the extracted names are the
attribute names of the named datasource elements with the reserved names
filtered out, in order. -/
theorem dsRecord_names (l : List Elem) :
    (l.filterMap WorkbookParser.dsRecord).map (fun ds => ds.name)
      = (l.map (fun e => (e.attr "name").getD "")).filter
          (fun n => !(pyStartsWith n "Parameters") && !(n == "Sample File")) := by
  induction l with
  | nil => rfl
  | cons e tl ih =>
    rw [List.filterMap_cons, List.map_cons, List.filter_cons]
    by_cases hres : ((e.attr "name").getD "") ≠ ""
        ∧ (pyStartsWith ((e.attr "name").getD "") "Parameters" = true
            ∨ ((e.attr "name").getD "") = "Sample File")
    · have h1 : WorkbookParser.dsRecord e = none := by
        unfold WorkbookParser.dsRecord
        exact if_pos hres
      have h2 : (!(pyStartsWith ((e.attr "name").getD "") "Parameters")
          && !(((e.attr "name").getD "") == "Sample File")) = false := by
        rcases hres.2 with h | h
        · simp [h]
        · simp [h]
      rw [h1, h2]
      simpa using ih
    · have h1 : WorkbookParser.dsRecord e
          = some { name := (e.attr "name").getD "",
                   caption := e.getA "caption" ((e.attr "name").getD ""),
                   inline := e.getA "inline" "false",
                   connection := WorkbookParser._extract_connection e } := by
        unfold WorkbookParser.dsRecord
        exact if_neg hres
      have h2 : (!(pyStartsWith ((e.attr "name").getD "") "Parameters")
          && !(((e.attr "name").getD "") == "Sample File")) = true := by
        by_cases he : ((e.attr "name").getD "") = ""
        · simp only [he]
          decide
        · have hnr : ¬ (pyStartsWith ((e.attr "name").getD "") "Parameters" = true
              ∨ ((e.attr "name").getD "") = "Sample File") :=
            fun hor => hres ⟨he, hor⟩
          rw [not_or] at hnr
          simp [hnr.1, hnr.2]
      rw [h1, h2]
      simpa using ih

/-- Claim C9: no reserved datasource name (prefix "Parameters" or literal
"Sample File") ever appears in the extracted datasource list, and the
remaining named datasources appear in document order. -/
theorem c9_reserved_datasources (d : Elem) :
    (∀ ds ∈ WorkbookParser.extract_datasources d,
        pyStartsWith ds.name "Parameters" = false ∧ ds.name ≠ "Sample File")
    ∧ (WorkbookParser.extract_datasources d).map (fun ds => ds.name)
      = ((d.findAllHasAttr "datasource" "name").map (fun e => (e.attr "name").getD "")).filter
          (fun n => !(pyStartsWith n "Parameters") && !(n == "Sample File")) := by
  refine ⟨?_, dsRecord_names _⟩
  intro ds hds
  obtain ⟨e, _, he⟩ := List.mem_filterMap.mp hds
  exact dsRecord_name_ok e ds he

/-- Witness for claim C9 at a concrete workbook holding both reserved names
and one ordinary datasource: only the ordinary one survives, and it fails both
reserved-name tests. -/
theorem c9_witness :
    (WorkbookParser.extract_datasources resDoc).map (fun ds => ds.name) = ["Good"]
    ∧ pyStartsWith "Good" "Parameters" = false ∧ ("Good" : String) ≠ "Sample File" := by
  refine ⟨(c9_reserved_datasources resDoc).2.trans (by decide), ?_⟩
  exact (c9_reserved_datasources resDoc).1
    { name := "Good", caption := "Good", inline := "false", connection := [] } (by decide)

end ClaimNine

section ClaimTen

/-- Claim C10: when a join-typed clause descendant exists, the extracted
condition is that (first) clause element expression attribute, empty when the
attribute is missing; the relation element own expression attribute is used
only when no join-typed clause descendant exists at all. -/
theorem c10_join_clause_precedence (r : Elem) :
    (∀ c, r.findFirstAttrEq "clause" "type" "join" = some c →
        WorkbookParser._extract_join_clause r = c.getA "expression" ""
        ∧ (c.attr "expression" = none → WorkbookParser._extract_join_clause r = ""))
    ∧ (r.findFirstAttrEq "clause" "type" "join" = none →
        WorkbookParser._extract_join_clause r = r.getA "expression" "") := by
  constructor
  · intro c hc
    have h1 : WorkbookParser._extract_join_clause r = c.getA "expression" "" := by
      unfold WorkbookParser._extract_join_clause
      rw [hc]
    refine ⟨h1, fun hattr => ?_⟩
    rw [h1]
    unfold Elem.getA
    rw [hattr]
    rfl
  · intro hc
    unfold WorkbookParser._extract_join_clause
    rw [hc]

/-- Witness for claim C10 at a concrete relation whose clause lacks the
expression attribute while the relation itself carries one: the condition is
the empty string, not the relation-level expression. -/
theorem c10_witness :
    WorkbookParser._extract_join_clause relFallback = ""
    ∧ relFallback.attr "expression" = some "[A]=[B]" := by
  refine ⟨((c10_join_clause_precedence relFallback).1 clauseNoExpr rfl).2 rfl, by decide⟩

end ClaimTen

section ClaimFive

/-- Setting "right" in a dict already holding "left" and "right" overwrites
the "right" binding in place. -/
theorem dictSet_right_two (x y v : PrepFlowParser.JoinInput) :
    dictSet [("left", x), ("right", y)] "right" v = [("left", x), ("right", v)] := by
  unfold dictSet
  rw [if_neg (by decide)]
  unfold dictSet
  rw [if_pos rfl]

/-- Setting "right" in a dict holding only "left" appends the binding. -/
theorem dictSet_right_one (x v : PrepFlowParser.JoinInput) :
    dictSet [("left", x)] "right" v = [("left", x), ("right", v)] := by
  unfold dictSet
  rw [if_neg (by decide)]
  rfl

/-- Folding the join-input loop body over the elements with positive indices,
starting from a dict holding both keys: every step overwrites "right", so the
final "right" value is the last element (the start value when there are
none). -/
theorem joinInput_fold_two (l : List Elem) :
    ∀ (n : Nat) (x y : PrepFlowParser.JoinInput), 0 < n →
    List.foldl PrepFlowParser.joinInputStep [("left", x), ("right", y)] (List.enumFrom n l)
      = [("left", x), ("right", ((l.getLast?).map PrepFlowParser.mkJoinInput).getD y)] := by
  induction l with
  | nil =>
    intro n x y _
    rw [List.enumFrom_nil]
    rfl
  | cons e ts ih =>
    intro n x y hn
    rw [List.enumFrom_cons, List.foldl_cons]
    have hstep : PrepFlowParser.joinInputStep [("left", x), ("right", y)] (n, e)
        = [("left", x), ("right", PrepFlowParser.mkJoinInput e)] := by
      unfold PrepFlowParser.joinInputStep
      rw [if_neg (Nat.pos_iff_ne_zero.mp hn)]
      exact dictSet_right_two x y (PrepFlowParser.mkJoinInput e)
    rw [hstep, ih (n + 1) x (PrepFlowParser.mkJoinInput e) (by omega)]
    cases hts : ts.getLast? with
    | none =>
      have : ts = [] := List.getLast?_eq_none.mp hts
      subst this
      rw [List.getLast?_singleton]
      rfl
    | some b =>
      have hne : ts ≠ [] := by
        intro h
        subst h
        cases hts
      obtain ⟨t, ts2, rfl⟩ := List.exists_cons_of_ne_nil hne
      rw [List.getLast?_cons_cons, hts]
      rfl

/-- Folding the join-input loop body over positive indices starting from a
dict holding only "left": the final "right" value is the last element, and no
"right" binding appears when there are no elements. -/
theorem joinInput_fold_one (l : List Elem) (n : Nat) (x : PrepFlowParser.JoinInput)
    (hn : 0 < n) :
    List.foldl PrepFlowParser.joinInputStep [("left", x)] (List.enumFrom n l)
      = match l.getLast? with
        | some b => [("left", x), ("right", PrepFlowParser.mkJoinInput b)]
        | none => [("left", x)] := by
  cases l with
  | nil =>
    rw [List.enumFrom_nil]
    rfl
  | cons e ts =>
    rw [List.enumFrom_cons, List.foldl_cons]
    have hstep : PrepFlowParser.joinInputStep [("left", x)] (n, e)
        = [("left", x), ("right", PrepFlowParser.mkJoinInput e)] := by
      unfold PrepFlowParser.joinInputStep
      rw [if_neg (Nat.pos_iff_ne_zero.mp hn)]
      exact dictSet_right_one x (PrepFlowParser.mkJoinInput e)
    rw [hstep, joinInput_fold_two ts (n + 1) x (PrepFlowParser.mkJoinInput e) (by omega)]
    cases hts : ts.getLast? with
    | none =>
      have : ts = [] := List.getLast?_eq_none.mp hts
      subst this
      rw [List.getLast?_singleton]
      rfl
    | some b =>
      have hne : ts ≠ [] := by
        intro h
        subst h
        cases hts
      obtain ⟨t, ts2, rfl⟩ := List.exists_cons_of_ne_nil hne
      rw [List.getLast?_cons_cons, hts]
      rfl

/-- Claim C5, counterexample: in a join node with three input elements the
"right" side holds the third input, not the second, so inputs beyond the
first two are not ignored. -/
theorem c5_counterexample :
    dictGet?
      (PrepFlowParser._extract_join_inputs
        (.mk "node" [("type", "join")]
          [.mk "input" [("source", "A"), ("alias", "a")] [],
           .mk "input" [("source", "B"), ("alias", "b")] [],
           .mk "input" [("source", "C"), ("alias", "c")] []]))
      "right"
      = some { source := "C", alias_ := "c" } := by
  decide

/-- Claim C5 as amended: the left input of a join is the first nested input
element, but the right input is the LAST nested input element in document
order (each carrying its source and alias attributes); with exactly two
inputs this is the second, but later inputs overwrite the right side rather
than being ignored.  A single input yields only a left side; no inputs yield
an empty dict. -/
theorem c5_join_inputs_amended (j : Elem) :
    (j.findAll "input" = [] → PrepFlowParser._extract_join_inputs j = [])
    ∧ (∀ a, j.findAll "input" = [a] →
        PrepFlowParser._extract_join_inputs j = [("left", PrepFlowParser.mkJoinInput a)])
    ∧ (∀ a rest b, j.findAll "input" = a :: rest → rest.getLast? = some b →
        PrepFlowParser._extract_join_inputs j
          = [("left", PrepFlowParser.mkJoinInput a),
             ("right", PrepFlowParser.mkJoinInput b)]) := by
  refine ⟨?_, ?_, ?_⟩
  · intro h
    unfold PrepFlowParser._extract_join_inputs
    rw [h]
    rfl
  · intro a h
    unfold PrepFlowParser._extract_join_inputs
    rw [h]
    rfl
  · intro a rest b h hb
    unfold PrepFlowParser._extract_join_inputs
    rw [h, List.enum_cons, List.foldl_cons]
    have hstep : PrepFlowParser.joinInputStep [] (0, a)
        = [("left", PrepFlowParser.mkJoinInput a)] := rfl
    rw [hstep, joinInput_fold_one rest 1 (PrepFlowParser.mkJoinInput a) (by omega), hb]

/-- Witness for the amended claim C5 at a concrete two-input join: the second
(and last) input becomes the right side. -/
theorem c5_witness :
    PrepFlowParser._extract_join_inputs
        (.mk "node" [("type", "join")]
          [.mk "input" [("source", "A"), ("alias", "a")] [],
           .mk "input" [("source", "B"), ("alias", "b")] []])
      = [("left", { source := "A", alias_ := "a" }),
         ("right", { source := "B", alias_ := "b" })] := by
  have h := (c5_join_inputs_amended
      (Elem.mk "node" [("type", "join")]
        [Elem.mk "input" [("source", "A"), ("alias", "a")] [],
         Elem.mk "input" [("source", "B"), ("alias", "b")] []])).2.2
    (Elem.mk "input" [("source", "A"), ("alias", "a")] [])
    [Elem.mk "input" [("source", "B"), ("alias", "b")] []]
    (Elem.mk "input" [("source", "B"), ("alias", "b")] []) rfl rfl
  exact h.trans rfl

end ClaimFive

section ClaimThree

/-- On a dot-free pattern, the regex position-match is exactly a prefix test
of the lower-cased pattern against the lower-cased text. -/
theorem patMatchAt_eq_isPrefixOf (pat : List Char) (hdot : '.' ∉ pat) :
    ∀ text : List Char,
      patMatchAt pat text = (pat.map Char.toLower).isPrefixOf (text.map Char.toLower) := by
  induction pat with
  | nil => intro text; cases text <;> rfl
  | cons p ps ih =>
    intro text
    have hp : p ≠ '.' := fun h => hdot (by rw [h]; exact List.mem_cons_self _ _)
    have hpb : (p == '.') = false := beq_eq_false_iff_ne.mpr hp
    have hdot2 : '.' ∉ ps := fun h => hdot (List.mem_cons_of_mem _ h)
    cases text with
    | nil => rfl
    | cons c cs =>
      have hL : patMatchAt (p :: ps) (c :: cs)
          = (((p == '.') || (p.toLower == c.toLower)) && patMatchAt ps cs) := rfl
      have hR : ((p :: ps).map Char.toLower).isPrefixOf ((c :: cs).map Char.toLower)
          = ((p.toLower == c.toLower)
              && ((ps.map Char.toLower).isPrefixOf (cs.map Char.toLower))) := rfl
      rw [hL, hR, hpb, Bool.false_or, ih hdot2 cs]

/-- On a metacharacter-free query the pandas regex containment coincides with
plain case-insensitive substring containment. -/
theorem regexContains_eq_substrCI (pat hay : String) (h : noMeta pat = true) :
    regexContains pat hay = substrCI hay pat := by
  have hdot : '.' ∉ pat.data := by
    intro hm
    have hc := (List.all_eq_true.mp h) '.' hm
    have : reMetachars.contains '.' = true := by decide
    rw [this] at hc
    cases hc
  unfold regexContains substrCI lowerStr
  congr 1
  funext i
  rw [patMatchAt_eq_isPrefixOf pat.data hdot (hay.data.drop i), List.map_drop]

/-- Claim C3, counterexample: the lookup treats the query as a regular
expression, so the query "a.b" returns a row whose dashboard-name field
"axb" does not contain "a.b" as a substring, contradicting the claimed
substring-only matching rule. -/
theorem c3_counterexample :
    ContextManager.get_relevant_issues
        (some [{ dashboardName := some "axb", issueDescription := none,
                 rootCause := none, resolution := none }])
        "a.b" 5
      = [{ dashboardName := some "axb", issueDescription := none,
           rootCause := none, resolution := none }]
    ∧ substrCI "axb" "a.b" = false := by
  exact ⟨by decide, by decide⟩

/-- Claim C3 as amended: the lookup matches a row when its dashboard-name
field contains a case-insensitive match of the query interpreted as a regular
expression (the pandas default); for a query free of regex metacharacters
this is exactly case-insensitive substring containment, and then the result
is the first `limit` matching rows in dataset order, rows with a missing
dashboard-name field never matching. -/
theorem c3_issue_lookup_amended (rows : List ContextManager.IssueRow)
    (name : String) (limit : Nat) (h : noMeta name = true) :
    ContextManager.get_relevant_issues (some rows) name limit
      = (rows.filter (fun r =>
            match r.dashboardName with
            | some s => substrCI s name
            | none => false)).take limit := by
  have hunf : ContextManager.get_relevant_issues (some rows) name limit
      = if rows.length = 0 then []
        else (rows.filter (ContextManager.rowMatches name)).take limit := rfl
  rw [hunf]
  by_cases hz : rows.length = 0
  · rw [if_pos hz]
    have hnil : rows = [] := List.length_eq_zero.mp hz
    subst hnil
    simp
  · rw [if_neg hz]
    have hfil : rows.filter (ContextManager.rowMatches name)
        = rows.filter (fun r =>
            match r.dashboardName with
            | some s => substrCI s name
            | none => false) := by
      apply List.filter_congr
      intro r _
      unfold ContextManager.rowMatches
      cases r.dashboardName with
      | none => rfl
      | some s => exact regexContains_eq_substrCI name s h
    rw [hfil]

/-- Witness for the amended claim C3, realising the spec example: against a
dataset of five rows whose dashboard-name fields all contain
"sales_dashboard" case-insensitively, a query with limit 3 returns exactly
the first three rows in dataset order. -/
theorem c3_witness :
    ContextManager.get_relevant_issues
        (some
          [{ dashboardName := some "Sales_Dashboard_A", issueDescription := some "i1",
             rootCause := none, resolution := none },
           { dashboardName := some "SALES_dashboard_B", issueDescription := some "i2",
             rootCause := none, resolution := none },
           { dashboardName := some "sales_dashboard_C", issueDescription := some "i3",
             rootCause := none, resolution := none },
           { dashboardName := some "My Sales_Dashboard D", issueDescription := some "i4",
             rootCause := none, resolution := none },
           { dashboardName := some "sales_dashboarD", issueDescription := some "i5",
             rootCause := none, resolution := none }])
        "sales_dashboard" 3
      = [{ dashboardName := some "Sales_Dashboard_A", issueDescription := some "i1",
           rootCause := none, resolution := none },
         { dashboardName := some "SALES_dashboard_B", issueDescription := some "i2",
           rootCause := none, resolution := none },
         { dashboardName := some "sales_dashboard_C", issueDescription := some "i3",
           rootCause := none, resolution := none }] := by
  rw [c3_issue_lookup_amended _ "sales_dashboard" 3 (by decide)]
  decide

end ClaimThree

section ClaimEight

/-- Claim C8: one record per join-typed relation in document order; the left
and right tables come from the first and second table-typed relation
descendants when at least two exist (table attribute with name fallback) and
both default to the empty string otherwise; the condition comes from the
first join-typed clause descendant, falling back to the relation own
expression attribute only when no such clause exists.  The Orders/Customers
example extracts exactly as the spec states. -/
theorem c8_workbook_joins (d : Elem) :
    ((WorkbookParser.extract_joins d).length
        = (d.findAllAttrEq "relation" "type" "join").length)
    ∧ (∀ i j r, (WorkbookParser.extract_joins d).get? i = some j →
        (d.findAllAttrEq "relation" "type" "join").get? i = some r →
        (2 ≤ (r.findAllAttrEq "relation" "type" "table").length →
            j.tables.left = (((r.findAllAttrEq "relation" "type" "table").get? 0).map
                (fun t => t.getA "table" (t.getA "name" ""))).getD ""
            ∧ j.tables.right = (((r.findAllAttrEq "relation" "type" "table").get? 1).map
                (fun t => t.getA "table" (t.getA "name" ""))).getD "")
        ∧ ((r.findAllAttrEq "relation" "type" "table").length < 2 →
            j.tables = { left := "", right := "" })
        ∧ (∀ c, r.findFirstAttrEq "clause" "type" "join" = some c →
            j.condition = c.getA "expression" "")
        ∧ (r.findFirstAttrEq "clause" "type" "join" = none →
            j.condition = r.getA "expression" ""))
    ∧ WorkbookParser.extract_joins wbJoinExample
      = [{ join_type := "inner", connection := "",
           tables := { left := "Orders", right := "Customers" },
           condition := "[Orders].[CustomerID] = [Customers].[CustomerID]" }] := by
  refine ⟨?_, ?_, by decide⟩
  · unfold WorkbookParser.extract_joins
    exact List.length_map _ _
  · intro i j r hj hr
    unfold WorkbookParser.extract_joins at hj
    rw [List.get?_map, hr] at hj
    have hjr : j = { join_type := r.getA "join" "inner",
                     connection := r.getA "connection" "",
                     tables := WorkbookParser._extract_join_tables r,
                     condition := WorkbookParser._extract_join_clause r } :=
      (Option.some.inj hj).symm
    subst hjr
    refine ⟨?_, ?_, ?_, ?_⟩
    · intro h2
      cases hts : r.findAllAttrEq "relation" "type" "table" with
      | nil =>
        rw [hts] at h2
        exact absurd h2 (by norm_num)
      | cons t0 ts =>
        cases ts with
        | nil =>
          rw [hts] at h2
          exact absurd h2 (by norm_num)
        | cons t1 rest =>
          have htab : WorkbookParser._extract_join_tables r
              = { left := t0.getA "table" (t0.getA "name" ""),
                  right := t1.getA "table" (t1.getA "name" "") } := by
            unfold WorkbookParser._extract_join_tables
            rw [hts]
          constructor
          · show (WorkbookParser._extract_join_tables r).left = _
            rw [htab]
            rfl
          · show (WorkbookParser._extract_join_tables r).right = _
            rw [htab]
            rfl
    · intro h2
      show WorkbookParser._extract_join_tables r = _
      cases hts : r.findAllAttrEq "relation" "type" "table" with
      | nil =>
        unfold WorkbookParser._extract_join_tables
        rw [hts]
      | cons t0 ts =>
        cases ts with
        | nil =>
          unfold WorkbookParser._extract_join_tables
          rw [hts]
        | cons t1 rest =>
          rw [hts] at h2
          simp at h2
          omega
    · intro c hc
      show WorkbookParser._extract_join_clause r = _
      unfold WorkbookParser._extract_join_clause
      rw [hc]
    · intro hc
      show WorkbookParser._extract_join_clause r = _
      unfold WorkbookParser._extract_join_clause
      rw [hc]

/-- Witness for claim C8 at the concrete Orders/Customers workbook: the
single extracted join record carries the two table names and the exact clause
expression. -/
theorem c8_witness :
    (WorkbookParser.extract_joins wbJoinExample).length = 1
    ∧ ∃ j, (WorkbookParser.extract_joins wbJoinExample).get? 0 = some j
        ∧ j.tables.left = "Orders" ∧ j.tables.right = "Customers"
        ∧ j.condition = "[Orders].[CustomerID] = [Customers].[CustomerID]" := by
  have h := c8_workbook_joins wbJoinExample
  refine ⟨h.1.trans (by decide), ?_⟩
  refine ⟨{ join_type := "inner", connection := "",
            tables := { left := "Orders", right := "Customers" },
            condition := "[Orders].[CustomerID] = [Customers].[CustomerID]" }, rfl, ?_, ?_, ?_⟩
  · exact ((h.2.1 0 _ wbJoinRel rfl rfl).1 (by decide)).1.trans (by decide)
  · exact ((h.2.1 0 _ wbJoinRel rfl rfl).1 (by decide)).2.trans (by decide)
  · exact ((h.2.1 0 _ wbJoinRel rfl rfl).2.2.1 wbJoinClause rfl).trans (by decide)

end ClaimEight

section ClaimSix

/-- Claim C6: the workbook formatter lines decompose as the header followed by
the datasource, calculated-field, parameter, join and filter blocks in that
fixed order, each block present exactly when its collection is non-empty; a
calculated-field list longer than 10 renders exactly the first 10 bullets and
one trailer naming the remaining count, a list of at most 10 renders every
entry with no trailer, and the filter block renders at most the first 5
filters. -/
theorem c6_workbook_formatter (m : ContextManager.WorkbookMetadata) :
    ∃ dsB calcB paramB joinB filtB : List String,
      ContextManager.wbSections m
        = ("# Tableau Workbook: " ++ m.dashboard_name ++ "\n")
            :: (dsB ++ calcB ++ paramB ++ joinB ++ filtB)
      ∧ (dsB = [] ↔ m.datasources = [])
      ∧ (calcB = [] ↔ m.calculated_fields = [])
      ∧ (paramB = [] ↔ m.parameters = [])
      ∧ (joinB = [] ↔ m.joins = [])
      ∧ (filtB = [] ↔ m.filters = [])
      ∧ (dsB ≠ [] →
          dsB = "## Data Sources:" :: m.datasources.map ContextManager.fmtDatasourceLine)
      ∧ (10 < m.calculated_fields.length →
          calcB = "\n## Calculated Fields:"
              :: ((m.calculated_fields.take 10).map ContextManager.fmtCalcLine
                  ++ [ContextManager.calcTrailer (m.calculated_fields.length - 10)])
          ∧ ((m.calculated_fields.take 10).map ContextManager.fmtCalcLine).length = 10)
      ∧ (m.calculated_fields ≠ [] → m.calculated_fields.length ≤ 10 →
          calcB = "\n## Calculated Fields:" :: m.calculated_fields.map ContextManager.fmtCalcLine)
      ∧ (paramB ≠ [] →
          paramB = "\n## Parameters:" :: m.parameters.map ContextManager.fmtParamLine)
      ∧ (joinB ≠ [] →
          joinB = "\n## Joins:" :: m.joins.flatMap ContextManager.fmtJoinLines)
      ∧ (filtB ≠ [] →
          filtB = "\n## Active Filters:"
            :: (m.filters.take 5).map ContextManager.fmtFilterLine) := by
  refine ⟨(if m.datasources = [] then [] else
            "## Data Sources:" :: m.datasources.map ContextManager.fmtDatasourceLine),
          (if m.calculated_fields = [] then [] else
            "\n## Calculated Fields:"
              :: ((m.calculated_fields.take 10).map ContextManager.fmtCalcLine
                  ++ (if 10 < m.calculated_fields.length then
                        [ContextManager.calcTrailer (m.calculated_fields.length - 10)] else []))),
          (if m.parameters = [] then [] else
            "\n## Parameters:" :: m.parameters.map ContextManager.fmtParamLine),
          (if m.joins = [] then [] else
            "\n## Joins:" :: m.joins.flatMap ContextManager.fmtJoinLines),
          (if m.filters = [] then [] else
            "\n## Active Filters:" :: (m.filters.take 5).map ContextManager.fmtFilterLine),
          ?_, ?_, ?_, ?_, ?_, ?_, ?_, ?_, ?_, ?_, ?_, ?_⟩
  · unfold ContextManager.wbSections
    simp [List.append_assoc]
  · by_cases h : m.datasources = [] <;> simp [h]
  · by_cases h : m.calculated_fields = [] <;> simp [h]
  · by_cases h : m.parameters = [] <;> simp [h]
  · by_cases h : m.joins = [] <;> simp [h]
  · by_cases h : m.filters = [] <;> simp [h]
  · intro h
    by_cases hd : m.datasources = []
    · rw [if_pos hd] at h
      exact absurd rfl h
    · rw [if_neg hd]
  · intro h10
    have hne : m.calculated_fields ≠ [] := by
      intro hnil
      rw [hnil] at h10
      simp at h10
    constructor
    · rw [if_neg hne, if_pos h10]
    · rw [List.length_map, List.length_take]
      omega
  · intro hne hle
    rw [if_neg hne, if_neg (by omega), List.take_of_length_le hle, List.append_nil]
  · intro h
    by_cases hp : m.parameters = []
    · rw [if_pos hp] at h
      exact absurd rfl h
    · rw [if_neg hp]
  · intro h
    by_cases hj : m.joins = []
    · rw [if_pos hj] at h
      exact absurd rfl h
    · rw [if_neg hj]
  · intro h
    by_cases hf : m.filters = []
    · rw [if_pos hf] at h
      exact absurd rfl h
    · rw [if_neg hf]

/-- Witness for claim C6 at the thirteen-field record: the calculated-field
block produced by the formatter carries the literal trailer "(... and 3
more)", which also appears among the formatter output lines. -/
theorem c6_witness :
    ∃ calcB : List String,
      calcB.contains "  _(... and 3 more)_" = true
      ∧ (ContextManager.wbSections m13).contains "  _(... and 3 more)_" = true := by
  obtain ⟨dsB, calcB, paramB, joinB, filtB, hsec, h1, h2, h3, h4, h5, hds, hgt, hle, hp, hj, hf⟩ :=
    c6_workbook_formatter m13
  have hcb := (hgt (by decide)).1
  refine ⟨calcB, ?_, by decide⟩
  rw [hcb]
  decide

end ClaimSix

section ClaimSeven

/-- Unfolding of the assembler: the output is always the metadata section (or
its placeholder) and the issues section (or its placeholder) joined by the
fixed separator. -/
theorem build_context_summary_eq (n ty : String) (md : Option ContextManager.MetaDoc)
    (issues : List ContextManager.IssueRow) :
    ContextManager.build_context_summary n ty md issues
      = (match md with
         | some m => ContextManager._format_metadata m
         | none =>
           "# " ++ pyTitle (pyReplace ty "_" " ") ++ ": " ++ n
             ++ "\n\n(No metadata available)")
        ++ "\n\n---\n\n"
        ++ (if issues ≠ [] then ContextManager._format_issues issues
            else "# Historical Issues\n\nNo previous issues found for this dashboard.") := rfl

/-- A string extended on both sides by the seven-character separator is never
empty. -/
theorem sep_append_ne_empty (a b : String) : a ++ "\n\n---\n\n" ++ b ≠ "" := by
  intro h
  have hlen := congrArg String.length h
  rw [String.length_append, String.length_append] at hlen
  have h7 : ("\n\n---\n\n" : String).length = 7 := rfl
  have h0 : ("" : String).length = 0 := rfl
  rw [h7, h0] at hlen
  omega

/-- Claim C7: for every combination of present/absent metadata and
empty/non-empty issue list, the assembler (a total function in this model, so
it never raises) returns a non-empty string made of the metadata section and
the issues section joined by the separator; with no metadata the first
section is the placeholder line naming the dashboard and containing
"(No metadata available)", and with no issues the second section is still
present as its placeholder line. -/
theorem c7_assembler_total (n ty : String) (md : Option ContextManager.MetaDoc)
    (issues : List ContextManager.IssueRow) :
    ∃ p1 p2 : String,
      ContextManager.build_context_summary n ty md issues = p1 ++ "\n\n---\n\n" ++ p2
      ∧ ContextManager.build_context_summary n ty md issues ≠ ""
      ∧ (md = none →
          p1 = "# " ++ pyTitle (pyReplace ty "_" " ") ++ ": " ++ n
              ++ "\n\n(No metadata available)")
      ∧ (∀ m, md = some m → p1 = ContextManager._format_metadata m)
      ∧ (issues = [] →
          p2 = "# Historical Issues\n\nNo previous issues found for this dashboard.")
      ∧ (issues ≠ [] → p2 = ContextManager._format_issues issues) := by
  refine ⟨(match md with
           | some m => ContextManager._format_metadata m
           | none =>
             "# " ++ pyTitle (pyReplace ty "_" " ") ++ ": " ++ n
               ++ "\n\n(No metadata available)"),
          (if issues ≠ [] then ContextManager._format_issues issues
           else "# Historical Issues\n\nNo previous issues found for this dashboard."),
          build_context_summary_eq n ty md issues, ?_, ?_, ?_, ?_, ?_⟩
  · rw [build_context_summary_eq n ty md issues]
    exact sep_append_ne_empty _ _
  · intro h
    rw [h]
  · intro m h
    rw [h]
  · intro h
    rw [if_neg (by simpa using h)]
  · intro h
    rw [if_pos h]

/-- Witness for claim C7 at a concrete call with no metadata and no issues:
the assembler returns exactly the two placeholder sections joined by the
separator. -/
theorem c7_witness :
    ContextManager.build_context_summary "sales_dashboard" "workbook" none []
      = "# Workbook: sales_dashboard\n\n(No metadata available)\n\n---\n\n# Historical Issues\n\nNo previous issues found for this dashboard." := by
  obtain ⟨p1, p2, heq, hne, hmd, hsome, hempty, hnonempty⟩ :=
    c7_assembler_total "sales_dashboard" "workbook" none []
  rw [heq, hmd rfl, hempty rfl]
  decide

end ClaimSeven
